import Mathlib

/-!
Verification of the GrayWolf runtime core against its design document.

The development shallowly embeds the three subsystems the design talks
about:

* the keyed GPU-resource caches of `tw::GLShaderStore`
  (source/TimberWolf/Graphics/OpenGL/GLShaderStore.cpp) — translated
  directly from the C++ source;
* the `GameLoop` frame scheduler (src/class/GameLoop/GameLoop.hpp declares
  it; the method bodies are not part of the sources, so the loop is
  modelled from the design document);
* the `tw::Clock` monotonic timer (src/class/Clock/Clock.hpp declares it;
  method bodies modelled from the design document and the header's
  const-qualifiers).

A `std::shared_ptr` is modelled by `Option`, with `none` standing for the
null pointer.  A `std::unordered_map<std::string, std::shared_ptr<V>>` is
modelled by an association list from keys to stored (possibly null)
pointers.  Mutating operations are written in state-passing style so that
"does not modify the map" is a provable statement rather than a typing
triviality.  Calls to the logging collaborator are modelled by returning
the list of emitted (category, message) pairs.
-/

namespace tw

/-- A `std::shared_ptr<V>`: either the null pointer or a pointer to a `V`. -/
abbrev SharedPtr (V : Type) := Option V

/-- One of the seven `std::unordered_map<std::string, std::shared_ptr<V>>`
caches of `tw::GLShaderStore` (`m_vertexShaders`, `m_fragmentShaders`, …),
as an association list from keys to stored shared pointers. -/
abbrev ShaderMap (V : Type) := List (String × SharedPtr V)

namespace GLShaderStore

variable {V : Type}

/-- `m.find(key)`: the stored shared pointer for `key`, if the key is
present (`std::unordered_map::find` returning an iterator ≠ `end()`). -/
def mapFind? (m : ShaderMap V) (key : String) : Option (SharedPtr V) :=
  (m.find? (fun p => p.1 == key)).map Prod.snd

/-- `tw::GLShaderStore::vertexShaderExists` (and its six per-kind twins):
`if (m.find(key) == m.end()) return false; else return true;`. -/
def shaderExists (m : ShaderMap V) (key : String) : Bool :=
  match mapFind? m key with
  | none => false
  | some _ => true

/-- `m[key]` (`std::unordered_map::operator[]`): returns the mapped shared
pointer if `key` is present; otherwise inserts a default-constructed
(null) shared pointer under `key` and returns it.  The possibly-modified
map is returned alongside the value. -/
def mapSubscript (m : ShaderMap V) (key : String) : SharedPtr V × ShaderMap V :=
  match mapFind? m key with
  | some v => (v, m)
  | none => (none, m ++ [(key, none)])

/-- `tw::GLShaderStore::getVertexShader` (and twins):
`if (!exists(key)) return nullptr; return m[key];`. -/
def getShader (m : ShaderMap V) (key : String) : SharedPtr V × ShaderMap V :=
  if shaderExists m key then mapSubscript m key else (none, m)

/-- `m.emplace(key, handle)` (`std::unordered_map::emplace`): inserts the
pair only if `key` is not already present. -/
def mapEmplace (m : ShaderMap V) (key : String) (h : SharedPtr V) : ShaderMap V :=
  if shaderExists m key then m else m ++ [(key, h)]

/-- `tw::GLShaderStore::logVertexShaderAlreadyExists` (and twins):
`Log::warning("shaderstore", "<Kind> with \"", key, "\" key already exists.")`,
modelled as the emitted (category, message) pair.  `kind` is the per-kind
prefix, e.g. "Vertex shader". -/
def logAlreadyExists (kind key : String) : String × String :=
  ("shaderstore", kind ++ " with \"" ++ key ++ "\" key already exists.")

/-- `tw::GLShaderStore::registerVertexShader(const std::string&, const
std::shared_ptr<GLVertexShader>&)` (and twins):
`if (exists(key)) { logAlreadyExists(key); return false; }
m.emplace(key, handle); return true;`.
Returns (result, map after, log messages emitted). -/
def registerShader (kind : String) (m : ShaderMap V) (key : String) (h : SharedPtr V) :
    Bool × ShaderMap V × List (String × String) :=
  if shaderExists m key then
    (false, m, [logAlreadyExists kind key])
  else
    (true, mapEmplace m key h, [])

/-- `tw::GLShaderStore::registerVertexShader(const std::string&,
GLVertexShader*)` (and twins): wraps the raw pointer in a fresh
`std::shared_ptr` and delegates to the shared-pointer overload. -/
def registerShaderRaw (kind : String) (m : ShaderMap V) (key : String) (p : V) :
    Bool × ShaderMap V × List (String × String) :=
  registerShader kind m key (some p)

/-- `m[key].reset()`: sets the shared pointer stored under `key` to null
(the subscript is only reached with `key` present in the source). -/
def mapSetNull (m : ShaderMap V) (key : String) : ShaderMap V :=
  m.map (fun p => if p.1 == key then (p.1, none) else p)

/-- `m.erase(key)` (`std::unordered_map::erase`): removes the entry for
`key` (an unordered map holds at most one). -/
def mapErase (m : ShaderMap V) (key : String) : ShaderMap V :=
  m.filter (fun p => !(p.1 == key))

/-- `tw::GLShaderStore::deleteVertexShader` (and twins):
`if (!exists(key)) return; m[key].reset(); m.erase(key);`. -/
def deleteShader (m : ShaderMap V) (key : String) : ShaderMap V :=
  if shaderExists m key then mapErase (mapSetNull m key) key else m

/-- Per-kind instance: `vertexShaderExists`. -/
def vertexShaderExists : ShaderMap V → String → Bool := shaderExists

/-- Per-kind instance: `getVertexShader`. -/
def getVertexShader : ShaderMap V → String → SharedPtr V × ShaderMap V := getShader

/-- Per-kind instance: `registerVertexShader` (shared-pointer overload). -/
def registerVertexShader : ShaderMap V → String → SharedPtr V →
    Bool × ShaderMap V × List (String × String) := registerShader "Vertex shader"

/-- Per-kind instance: `registerVertexShader` (raw-pointer overload). -/
def registerVertexShaderRaw : ShaderMap V → String → V →
    Bool × ShaderMap V × List (String × String) := registerShaderRaw "Vertex shader"

/-- Per-kind instance: `deleteVertexShader`. -/
def deleteVertexShader : ShaderMap V → String → ShaderMap V := deleteShader

/-- Per-kind instance: `registerFragmentShader`. -/
def registerFragmentShader : ShaderMap V → String → SharedPtr V →
    Bool × ShaderMap V × List (String × String) := registerShader "Fragment shader"

/-- Per-kind instance: `registerGeometryShader`. -/
def registerGeometryShader : ShaderMap V → String → SharedPtr V →
    Bool × ShaderMap V × List (String × String) := registerShader "Geometry shader"

/-- Per-kind instance: `registerTesselationEvaluationShader`. -/
def registerTesselationEvaluationShader : ShaderMap V → String → SharedPtr V →
    Bool × ShaderMap V × List (String × String) :=
  registerShader "Tesselation evaluation shader"

/-- Per-kind instance: `registerTesselationControlShader`. -/
def registerTesselationControlShader : ShaderMap V → String → SharedPtr V →
    Bool × ShaderMap V × List (String × String) :=
  registerShader "Tesselation control shader"

/-- Per-kind instance: `registerComputeShader`. -/
def registerComputeShader : ShaderMap V → String → SharedPtr V →
    Bool × ShaderMap V × List (String × String) := registerShader "Compute shader"

/-- Per-kind instance: `registerShaderProgram`. -/
def registerShaderProgram : ShaderMap V → String → SharedPtr V →
    Bool × ShaderMap V × List (String × String) := registerShader "Shader program"

end GLShaderStore

end tw

namespace tw

/-- Modelled from the spec: `tw::Clock` (src/class/Clock/Clock.hpp declares
it; the method bodies are absent from the sources).  Its only attribute is
the monotonic reset time point `m_resetTime`, modelled as a nanosecond
count on the monotonic clock.  The elapsed-time queries are declared
`const` in the header, so they are embedded in state-passing style
returning the (unchanged) clock. -/
structure Clock where
  m_resetTime : Int

/-- Modelled from the spec: the `tw::Clock` constructor defaults the reset
time to the current monotonic time `now`. -/
def Clock.make (now : Int) : Clock := ⟨now⟩

/-- Modelled from the spec: `reset()` — side effect only, sets the reset
time to the current monotonic time. -/
def Clock.reset (now : Int) (c : Clock) : Unit × Clock :=
  ((), { c with m_resetTime := now })

/-- Modelled from the spec: `getResetTime()` returns the stored reset time
point; a pure read. -/
def Clock.getResetTime (c : Clock) : Int × Clock := (c.m_resetTime, c)

/-- Modelled from the spec: `getElapsedNanoseconds()` — integral delta
between now and the last reset; a pure read. -/
def Clock.getElapsedNanoseconds (now : Int) (c : Clock) : Int × Clock :=
  (now - c.m_resetTime, c)

/-- Modelled from the spec: `getElapsedMicroseconds()` — integral delta in
microseconds; a pure read. -/
def Clock.getElapsedMicroseconds (now : Int) (c : Clock) : Int × Clock :=
  ((now - c.m_resetTime) / 1000, c)

/-- Modelled from the spec: `getElapsedMilliseconds()` — integral delta in
milliseconds; a pure read. -/
def Clock.getElapsedMilliseconds (now : Int) (c : Clock) : Int × Clock :=
  ((now - c.m_resetTime) / 1000000, c)

/-- Modelled from the spec: `getElapsedSeconds()` — floating delta in
seconds (modelled over `ℚ`); a pure read. -/
def Clock.getElapsedSeconds (now : Int) (c : Clock) : ℚ × Clock :=
  (((now - c.m_resetTime : Int) : ℚ) / 1000000000, c)

end tw

namespace GameLoop

/-- Modelled from the spec: the catch-up loop inside `GameLoop::update`
(declared in src/class/GameLoop/GameLoop.hpp; the body is absent from the
sources) — "while the accumulator exceeds the tick interval, invokes the
simulation update callback once with a fixed delta and decrements the
accumulator by one interval".  Returns the list of deltas passed to the
update callback (one entry per invocation) and the final accumulator. -/
def drainTicks (interval : ℚ) (hpos : 0 < interval) (acc : ℚ) : List ℚ × ℚ :=
  if h : interval < acc then
    let r := drainTicks interval hpos (acc - interval)
    (interval :: r.1, r.2)
  else ([], acc)
termination_by (⌈acc / interval⌉).toNat
decreasing_by
  have h1 : (1 : ℚ) < acc / interval := (one_lt_div hpos).mpr h
  have h2 : (1 : Int) < ⌈acc / interval⌉ := by
    rw [Int.lt_ceil]
    exact_mod_cast h1
  have h3 : (acc - interval) / interval = acc / interval - 1 := by
    rw [sub_div, div_self (ne_of_gt hpos)]
  simp only [h3, Int.ceil_sub_one]
  omega

/-- Modelled from the spec: the outer iteration of the accumulator-based
update loop — "each iteration measures elapsed time via Clock, accumulates
it", then drains complete ticks.  `dts` is the list of measured elapsed
durations, one per iteration; the result pairs the deltas of all update
callback invocations with the final accumulator. -/
def updateLoop (interval : ℚ) (hpos : 0 < interval) : ℚ → List ℚ → List ℚ × ℚ
  | acc, [] => ([], acc)
  | acc, dt :: rest =>
    let d := drainTicks interval hpos (acc + dt)
    let r := updateLoop interval hpos d.2 rest
    (d.1 ++ r.1, r.2)

/-- Modelled from the spec: the scheduler state of `GameLoop`
(src/class/GameLoop/GameLoop.hpp): the running flag `m_isRunning`, the
window-open flag `m_windowOpen`, whether the background update thread
`m_updateThread` currently exists, and the two configured rates. -/
structure State where
  m_isRunning : Bool
  m_windowOpen : Bool
  m_updateThreadExists : Bool
  m_renderFrameRate : Int
  m_updateTickRate : Int

/-- `GameLoop::isRunning()`: returns the running flag. -/
def isRunning (s : State) : Bool := s.m_isRunning

/-- Modelled from the spec: `GameLoop::freeze()` sets the stop signal
observed cooperatively by both loops, causing `isRunning()` to become
false. -/
def freeze (s : State) : State := { s with m_isRunning := false }

/-- Modelled from the spec: the observable events of one render-loop
iteration while `run()` is executing: an uneventful iteration, the window
closing, or `freeze()` being invoked from another thread. -/
inductive Event
  | iteration
  | windowClosed
  | freezeCall

/-- Modelled from the spec: the effect of one observed event on the
scheduler state. -/
def applyEvent (s : State) : Event → State
  | Event.iteration => s
  | Event.windowClosed => { s with m_windowOpen := false }
  | Event.freezeCall => freeze s

/-- Modelled from the spec: the start of `run()` — transitions to Running
by spawning the background update-loop thread and raising the running
flag. -/
def runStart (s : State) : State :=
  { s with m_isRunning := true, m_updateThreadExists := true }

/-- Modelled from the spec: the end of `run()` — joins the background
thread and transitions back to Idle, so no joinable thread remains and the
running flag is lowered. -/
def runJoin (s : State) : State :=
  { s with m_updateThreadExists := false, m_isRunning := false }

/-- Modelled from the spec: the render loop executed by `run()` on the
calling thread: it iterates while the running flag is set and the window
is open, applying each observed event; once a stop condition is observed
it joins the background thread and returns.  `none` means the finite event
trace ended with the loop still running (`run()` has not yet returned). -/
def runLoop : State → List Event → Option State
  | s, [] =>
    if s.m_isRunning && s.m_windowOpen then none else some (runJoin s)
  | s, e :: rest =>
    if s.m_isRunning && s.m_windowOpen then runLoop (applyEvent s e) rest
    else some (runJoin s)

/-- Modelled from the spec: `GameLoop::run()` — called from Idle, it
transitions to Running (spawning the update thread), executes the render
loop until a stop condition is observed, joins the background thread, and
returns only after transitioning back to Idle. -/
def run (s : State) (es : List Event) : Option State :=
  runLoop (runStart s) es

end GameLoop

namespace tw.GLShaderStore

variable {V : Type}

lemma shaderExists_false_iff (m : ShaderMap V) (k : String) :
    shaderExists m k = false ↔ mapFind? m k = none := by
  unfold shaderExists
  cases mapFind? m k <;> simp

lemma shaderExists_true_iff (m : ShaderMap V) (k : String) :
    shaderExists m k = true ↔ ∃ v, mapFind? m k = some v := by
  unfold shaderExists
  cases mapFind? m k <;> simp

lemma mapFind?_append_single (m : ShaderMap V) (k : String) (v : SharedPtr V)
    (h : mapFind? m k = none) : mapFind? (m ++ [(k, v)]) k = some v := by
  induction m with
  | nil => simp [mapFind?, List.find?]
  | cons p rest ih =>
      unfold mapFind? at h ⊢
      cases hb : p.1 == k with
      | true => simp [List.find?, hb] at h
      | false =>
          simp only [List.cons_append, List.find?, hb] at h ⊢
          exact ih h

lemma mapFind?_mapErase (m : ShaderMap V) (k : String) :
    mapFind? (mapErase m k) k = none := by
  induction m with
  | nil => simp [mapFind?, mapErase]
  | cons p rest ih =>
      unfold mapFind? mapErase at ih ⊢
      cases hb : p.1 == k with
      | true => simp only [List.filter, hb, Bool.not_true]; exact ih
      | false => simp only [List.filter, List.find?, hb, Bool.not_false]; exact ih

lemma getShader_of_find (m : ShaderMap V) (k : String) (v : SharedPtr V)
    (h : mapFind? m k = some v) : getShader m k = (v, m) := by
  unfold getShader mapSubscript
  rw [(shaderExists_true_iff m k).mpr ⟨v, h⟩, h]
  simp

lemma getShader_of_absent (m : ShaderMap V) (k : String)
    (h : mapFind? m k = none) : getShader m k = (none, m) := by
  unfold getShader
  rw [(shaderExists_false_iff m k).mpr h]
  simp

lemma register_of_absent (kind : String) (m : ShaderMap V) (k : String) (h : SharedPtr V)
    (habs : shaderExists m k = false) :
    registerShader kind m k h = (true, m ++ [(k, h)], []) := by
  unfold registerShader mapEmplace
  rw [habs]
  simp

lemma register_of_present (kind : String) (m : ShaderMap V) (k : String) (h : SharedPtr V)
    (hpres : shaderExists m k = true) :
    registerShader kind m k h = (false, m, [logAlreadyExists kind k]) := by
  unfold registerShader
  rw [hpres]
  simp

lemma shaderExists_append_single (m : ShaderMap V) (k : String) (v : SharedPtr V)
    (habs : shaderExists m k = false) : shaderExists (m ++ [(k, v)]) k = true := by
  rw [shaderExists_true_iff]
  exact ⟨v, mapFind?_append_single m k v ((shaderExists_false_iff m k).mp habs)⟩

lemma deleteShader_exists_false (m : ShaderMap V) (k : String) :
    shaderExists (deleteShader m k) k = false := by
  unfold deleteShader
  cases h : shaderExists m k with
  | false => simp [h]
  | true =>
      simp only [h, if_true]
      rw [shaderExists_false_iff]
      exact mapFind?_mapErase _ _

lemma mapSubscript_of_present (m : ShaderMap V) (k : String)
    (h : shaderExists m k = true) : (mapSubscript m k).2 = m := by
  obtain ⟨v, hv⟩ := (shaderExists_true_iff m k).mp h
  unfold mapSubscript
  rw [hv]

/-- C1: for every store kind, key `k` and handles `h1`, `h2`: registering
`h1` under an absent key `k` inserts it and returns true; a subsequent
register of `h2` under `k` is a no-op returning false that emits exactly
one diagnostic naming the kind and key, leaves the mapping intact, and
`get k` still yields `h1` — registration never overwrites. -/
theorem register_exactly_once (kind : String) {V : Type} (m : ShaderMap V)
    (k : String) (h1 h2 : SharedPtr V) (habs : shaderExists m k = false) :
    (registerShader kind m k h1).1 = true ∧
    (registerShader kind (registerShader kind m k h1).2.1 k h2).1 = false ∧
    (registerShader kind (registerShader kind m k h1).2.1 k h2).2.1
      = (registerShader kind m k h1).2.1 ∧
    (registerShader kind (registerShader kind m k h1).2.1 k h2).2.2
      = [logAlreadyExists kind k] ∧
    (getShader (registerShader kind (registerShader kind m k h1).2.1 k h2).2.1 k).1 = h1 := by
  have hf := (shaderExists_false_iff m k).mp habs
  rw [register_of_absent kind m k h1 habs]
  have hex : shaderExists (m ++ [(k, h1)]) k = true := shaderExists_append_single m k h1 habs
  rw [register_of_present kind (m ++ [(k, h1)]) k h2 hex]
  refine ⟨rfl, rfl, rfl, rfl, ?_⟩
  rw [getShader_of_find _ _ h1 (mapFind?_append_single m k h1 hf)]

/-- Witness for C1 at a concrete store: the empty vertex-shader cache with
key "basic.vert" and handles `some 1`, `some 2`. -/
theorem register_exactly_once_witness :
    shaderExists ([] : ShaderMap ℕ) "basic.vert" = false ∧
    ((registerShader "Vertex shader" ([] : ShaderMap ℕ) "basic.vert" (some 1)).1 = true ∧
     (registerShader "Vertex shader"
        (registerShader "Vertex shader" ([] : ShaderMap ℕ) "basic.vert" (some 1)).2.1
        "basic.vert" (some 2)).1 = false ∧
     (registerShader "Vertex shader"
        (registerShader "Vertex shader" ([] : ShaderMap ℕ) "basic.vert" (some 1)).2.1
        "basic.vert" (some 2)).2.1
       = (registerShader "Vertex shader" ([] : ShaderMap ℕ) "basic.vert" (some 1)).2.1 ∧
     (registerShader "Vertex shader"
        (registerShader "Vertex shader" ([] : ShaderMap ℕ) "basic.vert" (some 1)).2.1
        "basic.vert" (some 2)).2.2
       = [logAlreadyExists "Vertex shader" "basic.vert"] ∧
     (getShader (registerShader "Vertex shader"
        (registerShader "Vertex shader" ([] : ShaderMap ℕ) "basic.vert" (some 1)).2.1
        "basic.vert" (some 2)).2.1 "basic.vert").1 = some 1) :=
  ⟨rfl, register_exactly_once "Vertex shader" [] "basic.vert" (some 1) (some 2) rfl⟩

/-- C4: for every store and key, `get` returns the stored shared handle
when a mapping is present and the empty (null) result when absent.  The
embedding of `getShader` is a total function, so no exception is possible:
a missing key is surfaced as the `none` result. -/
theorem get_present_or_absent {V : Type} (m : ShaderMap V) (k : String) :
    (∀ v, mapFind? m k = some v → (getShader m k).1 = v) ∧
    (mapFind? m k = none → (getShader m k).1 = none) := by
  constructor
  · intro v hv
    rw [getShader_of_find m k v hv]
  · intro hv
    rw [getShader_of_absent m k hv]

/-- Witness for C4: a present key yields its stored handle, an absent key
yields the null result. -/
theorem get_present_or_absent_witness :
    (getShader ([("k", some 5)] : ShaderMap ℕ) "k").1 = some 5 ∧
    (getShader ([] : ShaderMap ℕ) "k").1 = none :=
  ⟨(get_present_or_absent [("k", some 5)] "k").1 (some 5) rfl,
   (get_present_or_absent [] "k").2 rfl⟩

/-- C5: the raw-pointer register overload wraps the pointer in a shared
handle and delegates to the shared-handle register (so it returns the
delegated boolean).  When that registration fails because the key exists,
the store is unchanged — in particular a handle absent from the store
before the call is still absent after it, modelling that the freshly
wrapped sole owner is dropped and the resource destroyed, with no
replacement of the existing entry. -/
theorem registerRaw_delegates_no_leak (kind : String) {V : Type} (m : ShaderMap V)
    (k : String) (p : V) :
    registerShaderRaw kind m k p = registerShader kind m k (some p) ∧
    (shaderExists m k = true →
      (registerShaderRaw kind m k p).1 = false ∧
      (registerShaderRaw kind m k p).2.1 = m ∧
      (some p ∉ m.map Prod.snd →
        some p ∉ ((registerShaderRaw kind m k p).2.1).map Prod.snd)) := by
  refine ⟨rfl, fun hpres => ?_⟩
  unfold registerShaderRaw
  rw [register_of_present kind m k (some p) hpres]
  exact ⟨rfl, rfl, fun hnm => hnm⟩

/-- Witness for C5: registering raw handle `2` under the occupied key "k"
fails, leaves the store unchanged, and does not retain the fresh handle. -/
theorem registerRaw_delegates_no_leak_witness :
    shaderExists ([("k", some 1)] : ShaderMap ℕ) "k" = true ∧
    ((registerShaderRaw "Vertex shader" ([("k", some 1)] : ShaderMap ℕ) "k" 2).1 = false ∧
     (registerShaderRaw "Vertex shader" ([("k", some 1)] : ShaderMap ℕ) "k" 2).2.1
       = [("k", some 1)] ∧
     (some 2 ∉ ([("k", some 1)] : ShaderMap ℕ).map Prod.snd →
       some 2 ∉ ((registerShaderRaw "Vertex shader"
          ([("k", some 1)] : ShaderMap ℕ) "k" 2).2.1).map Prod.snd)) :=
  ⟨rfl, (registerRaw_delegates_no_leak "Vertex shader" [("k", some 1)] "k" 2).2 rfl⟩

/-- C6: deleting an absent key leaves the store unchanged, and deleting a
key twice has the same observable effect on the store as deleting it
once. -/
theorem delete_absent_noop_idempotent {V : Type} (m : ShaderMap V) (k : String) :
    (shaderExists m k = false → deleteShader m k = m) ∧
    deleteShader (deleteShader m k) k = deleteShader m k := by
  constructor
  · intro h
    unfold deleteShader
    simp [h]
  · have h2 : shaderExists (deleteShader m k) k = false := deleteShader_exists_false m k
    conv_lhs => rw [deleteShader]
    simp [h2]

/-- Witness for C6: deleting from the empty store is a no-op, and double
deletion of "k" from a singleton store equals single deletion. -/
theorem delete_absent_noop_idempotent_witness :
    deleteShader ([] : ShaderMap ℕ) "k" = [] ∧
    deleteShader (deleteShader ([("k", some 3)] : ShaderMap ℕ) "k") "k"
      = deleteShader ([("k", some 3)] : ShaderMap ℕ) "k" :=
  ⟨(delete_absent_noop_idempotent [] "k").1 rfl,
   (delete_absent_noop_idempotent [("k", some 3)] "k").2⟩

/-- C7: after `delete k`, the mapping for `k` is gone: `exists k` is false
and `get k` yields the null result, whether or not `k` was present
before. -/
theorem delete_removes_mapping {V : Type} (m : ShaderMap V) (k : String) :
    shaderExists (deleteShader m k) k = false ∧
    (getShader (deleteShader m k) k).1 = none := by
  refine ⟨deleteShader_exists_false m k, ?_⟩
  rw [getShader_of_absent _ _
    ((shaderExists_false_iff _ _).mp (deleteShader_exists_false m k))]

/-- C9: registering a null shared handle under an absent key succeeds
(there is no null check), after which `exists k` is true while `get k`
returns the null handle — the same result `get` gives on a store where
`k` is absent, so a caller using only `get` cannot tell the two apart. -/
theorem register_null_indistinguishable (kind : String) {V : Type} (m : ShaderMap V)
    (k : String) (habs : shaderExists m k = false) :
    (registerShader kind m k none).1 = true ∧
    shaderExists (registerShader kind m k none).2.1 k = true ∧
    (getShader (registerShader kind m k none).2.1 k).1 = none ∧
    (getShader m k).1 = none := by
  have hf := (shaderExists_false_iff m k).mp habs
  rw [register_of_absent kind m k none habs]
  refine ⟨rfl, shaderExists_append_single m k none habs, ?_, ?_⟩
  · rw [getShader_of_find _ _ none (mapFind?_append_single m k none hf)]
  · rw [getShader_of_absent m k hf]

/-- Witness for C9: registering a null handle into the empty store. -/
theorem register_null_indistinguishable_witness :
    shaderExists ([] : ShaderMap ℕ) "k" = false ∧
    ((registerShader "Vertex shader" ([] : ShaderMap ℕ) "k" none).1 = true ∧
     shaderExists (registerShader "Vertex shader" ([] : ShaderMap ℕ) "k" none).2.1 "k" = true ∧
     (getShader (registerShader "Vertex shader" ([] : ShaderMap ℕ) "k" none).2.1 "k").1 = none ∧
     (getShader ([] : ShaderMap ℕ) "k").1 = none) :=
  ⟨rfl, register_null_indistinguishable "Vertex shader" [] "k" rfl⟩

/-- C10: queries do not mutate the store: `get` returns the store
unchanged on both the absent-key early return and the guarded present-key
subscript, and the subscript itself inserts nothing when the key is
present.  (`shaderExists` is embedded as a read-only function because the
source only calls the const `find` member.) -/
theorem queries_leave_store_unchanged {V : Type} (m : ShaderMap V) (k : String) :
    (getShader m k).2 = m ∧
    (shaderExists m k = true → (mapSubscript m k).2 = m) := by
  constructor
  · cases h : mapFind? m k with
    | none => rw [getShader_of_absent m k h]
    | some v => rw [getShader_of_find m k v h]
  · exact mapSubscript_of_present m k

/-- Witness for C10: query on a store holding "k". -/
theorem queries_leave_store_unchanged_witness :
    (getShader ([("k", some 3)] : ShaderMap ℕ) "k").2 = [("k", some 3)] ∧
    (mapSubscript ([("k", some 3)] : ShaderMap ℕ) "k").2 = [("k", some 3)] :=
  ⟨(queries_leave_store_unchanged [("k", some 3)] "k").1,
   (queries_leave_store_unchanged [("k", some 3)] "k").2 rfl⟩

end tw.GLShaderStore

namespace tw.Clock

/-- C8: the Clock's only mutable state is its reset time point (the sole
field of `Clock`): it is set on construction to now, mutated only by
`reset()` (which stores the new now), while every elapsed-time query and
`getResetTime` returns the clock unchanged — pure reads. -/
theorem queries_pure_reset_only_mutator (now : Int) (c : Clock) :
    (Clock.getResetTime c).2 = c ∧
    (Clock.getElapsedSeconds now c).2 = c ∧
    (Clock.getElapsedMilliseconds now c).2 = c ∧
    (Clock.getElapsedMicroseconds now c).2 = c ∧
    (Clock.getElapsedNanoseconds now c).2 = c ∧
    (Clock.make now).m_resetTime = now ∧
    (Clock.reset now c).2.m_resetTime = now :=
  ⟨rfl, rfl, rfl, rfl, rfl, rfl, rfl⟩

end tw.Clock

namespace GameLoop

lemma drainTicks_spec (I : ℚ) (hI : 0 < I) :
    ∀ (n : ℕ) (acc : ℚ), (⌈acc / I⌉).toNat ≤ n → 0 ≤ acc →
      (∀ d ∈ (drainTicks I hI acc).1, d = I) ∧
      ((drainTicks I hI acc).1.length : ℚ) * I + (drainTicks I hI acc).2 = acc ∧
      0 ≤ (drainTicks I hI acc).2 ∧ (drainTicks I hI acc).2 ≤ I := by
  intro n
  induction n with
  | zero =>
      intro acc hle h0
      have hna : ¬ I < acc := by
        intro hlt
        have h1 : (1 : ℚ) < acc / I := (one_lt_div hI).mpr hlt
        have h2 : (1 : Int) < ⌈acc / I⌉ := by
          rw [Int.lt_ceil]
          exact_mod_cast h1
        omega
      rw [drainTicks, dif_neg hna]
      exact ⟨by simp, by simp, h0, le_of_not_lt hna⟩
  | succ n ih =>
      intro acc hle h0
      by_cases hlt : I < acc
      · have hdec : (⌈(acc - I) / I⌉).toNat ≤ n := by
          have h1 : (1 : ℚ) < acc / I := (one_lt_div hI).mpr hlt
          have h2 : (1 : Int) < ⌈acc / I⌉ := by
            rw [Int.lt_ceil]
            exact_mod_cast h1
          have h3 : (acc - I) / I = acc / I - 1 := by
            rw [sub_div, div_self (ne_of_gt hI)]
          rw [h3, Int.ceil_sub_one]
          omega
        have h0' : 0 ≤ acc - I := by linarith
        obtain ⟨ha, hb, hc, hd⟩ := ih (acc - I) hdec h0'
        rw [drainTicks, dif_pos hlt]
        refine ⟨?_, ?_, hc, hd⟩
        · intro d hd'
          rcases List.mem_cons.mp hd' with h' | h'
          · exact h'
          · exact ha d h'
        · simp only [List.length_cons]
          push_cast
          linarith
      · rw [drainTicks, dif_neg hlt]
        exact ⟨by simp, by simp, h0, le_of_not_lt hlt⟩

lemma updateLoop_spec (I : ℚ) (hI : 0 < I) (dts : List ℚ) :
    ∀ acc : ℚ, 0 ≤ acc → acc ≤ I → (∀ dt ∈ dts, 0 ≤ dt) →
      (∀ d ∈ (updateLoop I hI acc dts).1, d = I) ∧
      ((updateLoop I hI acc dts).1.length : ℚ) * I + (updateLoop I hI acc dts).2
        = acc + dts.sum ∧
      0 ≤ (updateLoop I hI acc dts).2 ∧ (updateLoop I hI acc dts).2 ≤ I := by
  induction dts with
  | nil =>
      intro acc h0 hup _
      refine ⟨by simp [updateLoop], by simp [updateLoop], ?_, ?_⟩
      · simpa [updateLoop] using h0
      · simpa [updateLoop] using hup
  | cons dt rest ih =>
      intro acc h0 hup hd
      have hdt : 0 ≤ dt := hd dt (List.mem_cons_self dt rest)
      have hrest : ∀ x ∈ rest, 0 ≤ x := fun x hx => hd x (List.mem_cons_of_mem dt hx)
      have hacc' : 0 ≤ acc + dt := by linarith
      obtain ⟨da, db, dc, dd⟩ :=
        drainTicks_spec I hI (⌈(acc + dt) / I⌉).toNat (acc + dt) le_rfl hacc'
      obtain ⟨ra, rb, rc, rd⟩ := ih (drainTicks I hI (acc + dt)).2 dc dd hrest
      simp only [updateLoop]
      refine ⟨?_, ?_, rc, rd⟩
      · intro d hd'
        rcases List.mem_append.mp hd' with h' | h'
        · exact da d h'
        · exact ra d h'
      · simp only [List.length_append, List.sum_cons]
        push_cast
        linarith

/-- C2: for tick rate `R > 0`, running the accumulator-based update loop
over measured elapsed durations summing to `T` seconds (starting from an
empty accumulator, so with no backlog — the model drains every complete
tick each iteration) invokes the simulation update callback between
`⌈R·T⌉ − 1` and `⌈R·T⌉ + 1` times, and every invocation receives the
fixed delta `1/R`: the accumulator is decremented by exactly one tick
interval per invocation. -/
theorem update_fixed_timestep_tick_count (R : ℚ) (hR : 0 < R) (dts : List ℚ)
    (hdts : ∀ dt ∈ dts, 0 ≤ dt) :
    (∀ d ∈ (updateLoop (1 / R) (one_div_pos.mpr hR) 0 dts).1, d = 1 / R) ∧
    ⌈R * dts.sum⌉ - 1 ≤ ((updateLoop (1 / R) (one_div_pos.mpr hR) 0 dts).1.length : Int) ∧
    ((updateLoop (1 / R) (one_div_pos.mpr hR) 0 dts).1.length : Int) ≤ ⌈R * dts.sum⌉ + 1 := by
  have hI : (0 : ℚ) < 1 / R := one_div_pos.mpr hR
  have hRne : R ≠ 0 := ne_of_gt hR
  obtain ⟨ha, hb, hc, hd⟩ :=
    updateLoop_spec (1 / R) hI dts 0 le_rfl (le_of_lt hI) hdts
  refine ⟨ha, ?_, ?_⟩
  all_goals
    set L := (updateLoop (1 / R) (one_div_pos.mpr hR) 0 dts).1.length with hLdef
    set F := (updateLoop (1 / R) (one_div_pos.mpr hR) 0 dts).2 with hFdef
    set T := dts.sum with hTdef
  all_goals
    have key : (L : ℚ) + R * F = R * T := by
      have h1 : (L : ℚ) * (1 / R) + F = 0 + T := hb
      field_simp at h1
      linarith
    have hRF0 : 0 ≤ R * F := mul_nonneg (le_of_lt hR) hc
    have hRF1 : R * F ≤ 1 := by
      have h2 : R * F ≤ R * (1 / R) := mul_le_mul_of_nonneg_left hd (le_of_lt hR)
      rwa [mul_one_div_cancel hRne] at h2
  · have hq : R * T - 1 ≤ ((L : Int) : ℚ) := by
      push_cast
      linarith
    have h3 : ⌈R * T - 1⌉ ≤ (L : Int) := Int.ceil_le.mpr hq
    rw [Int.ceil_sub_one] at h3
    omega
  · have hq : ((L : Int) : ℚ) ≤ R * T := by
      push_cast
      linarith
    have h4 : ((L : Int) : ℚ) ≤ (⌈R * T⌉ : ℚ) := le_trans hq (Int.le_ceil _)
    have h5 : (L : Int) ≤ ⌈R * T⌉ := by exact_mod_cast h4
    omega

/-- Witness for C2: tick rate `R = 2` over one measured iteration of one
second fires the callback once (`⌈2⌉ − 1 ≤ 1 ≤ ⌈2⌉ + 1`) with delta
`1/2`. -/
theorem update_fixed_timestep_tick_count_witness :
    (0 : ℚ) < 2 ∧ (∀ dt ∈ ([1] : List ℚ), 0 ≤ dt) ∧
    ((∀ d ∈ (updateLoop (1 / 2) (by norm_num) 0 ([1] : List ℚ)).1, d = 1 / 2) ∧
     ⌈(2 : ℚ) * ([1] : List ℚ).sum⌉ - 1
       ≤ ((updateLoop (1 / 2) (by norm_num) 0 ([1] : List ℚ)).1.length : Int) ∧
     ((updateLoop (1 / 2) (by norm_num) 0 ([1] : List ℚ)).1.length : Int)
       ≤ ⌈(2 : ℚ) * ([1] : List ℚ).sum⌉ + 1) :=
  ⟨by norm_num, by norm_num,
   update_fixed_timestep_tick_count 2 (by norm_num) [1] (by norm_num)⟩

lemma runLoop_some : ∀ (es : List Event) (s s' : State),
    runLoop s es = some s' →
    s'.m_isRunning = false ∧ s'.m_updateThreadExists = false := by
  intro es
  induction es with
  | nil =>
      intro s s' h
      simp only [runLoop] at h
      split at h
      · exact absurd h (by simp)
      · have hj := Option.some.inj h
        subst hj
        exact ⟨rfl, rfl⟩
  | cons e rest ih =>
      intro s s' h
      simp only [runLoop] at h
      split at h
      · exact ih _ _ h
      · have hj := Option.some.inj h
        subst hj
        exact ⟨rfl, rfl⟩

/-- C3: the scheduler's quiescent states satisfy "the background thread
exists iff the running flag is true"; observing `freeze()` lowers the
running flag, and whenever `run()` returns it has joined the background
thread and transitioned back to Idle: `isRunning()` is false, no joinable
thread is outstanding, and a subsequent `run()` re-creates the thread
(its start transition raises both the flag and the thread). -/
theorem freeze_run_thread_invariant (s₀ s' : State) (es : List Event)
    (hidle : s₀.m_isRunning = false)
    (hinv : s₀.m_updateThreadExists = s₀.m_isRunning)
    (hret : run s₀ es = some s') :
    isRunning s' = false ∧ s'.m_updateThreadExists = false ∧
    s'.m_updateThreadExists = s'.m_isRunning ∧
    (∀ s : State, isRunning (freeze s) = false) ∧
    isRunning (runStart s') = true ∧ (runStart s').m_updateThreadExists = true := by
  simp only [run] at hret
  obtain ⟨h1, h2⟩ := runLoop_some es (runStart s₀) s' hret
  exact ⟨h1, h2, h2.trans h1.symm, fun s => rfl, rfl, rfl⟩

/-- Witness for C3: an Idle scheduler whose run observes a `freeze()` call
on its first iteration returns in the Idle state with no thread. -/
theorem freeze_run_thread_invariant_witness :
    (State.mk false true false 0 0).m_isRunning = false ∧
    (State.mk false true false 0 0).m_updateThreadExists
      = (State.mk false true false 0 0).m_isRunning ∧
    run (State.mk false true false 0 0) [Event.freezeCall]
      = some (State.mk false true false 0 0) ∧
    (isRunning (State.mk false true false 0 0) = false ∧
     (State.mk false true false 0 0).m_updateThreadExists = false ∧
     (State.mk false true false 0 0).m_updateThreadExists
       = (State.mk false true false 0 0).m_isRunning ∧
     (∀ s : State, isRunning (freeze s) = false) ∧
     isRunning (runStart (State.mk false true false 0 0)) = true ∧
     (runStart (State.mk false true false 0 0)).m_updateThreadExists = true) :=
  ⟨rfl, rfl, rfl,
   freeze_run_thread_invariant (State.mk false true false 0 0)
     (State.mk false true false 0 0) [Event.freezeCall] rfl rfl rfl⟩

end GameLoop
